import Mathlib

/-!
Verification of the market-data acquisition and pricing engine of the
Gold-Rush-Solaas repository (`modules/data_engine.py`, `modules/pricing_formulas.py`).

Modelling conventions, used throughout:
* Python/pandas floating point numbers are modelled as exact rationals (`ℚ`);
  decimal literals such as `1.12` are exact on `ℚ`.
* Timestamps are timezone-naive whole days, modelled as integers (`ℤ`);
  `datetime.now()` is an explicit `now : ℤ` parameter.
* A pandas cell is `Option ℚ`; `none` stands for a missing / non-finite value
  (`NaN`, `±Inf`).  Arithmetic propagates `none`, and a division by zero
  (which produces `inf`/`nan` in floats) also yields `none`.
* Python exceptions are modelled with `Except String`.
-/

-- ===========================================================================
-- modules/pricing_formulas.py
-- ===========================================================================

/-- `PricingFormula.CURRENT_VERSION` (pricing_formulas.py line 18). -/
def CURRENT_VERSION : String := "1.2"

/-- `PricingFormula.calculate_pp_fob_usd` (pricing_formulas.py lines 20-50).
`version = none` models the Python default `formula_version=None`, which the
source replaces by `CURRENT_VERSION`.  A non-positive WTI raises `ValueError`;
an unknown version raises `ValueError`. -/
def calculate_pp_fob_usd (wti : ℚ) (version : Option String) : Except String ℚ :=
  if wti ≤ 0 then
    .error "WTI deve ser um número positivo"
  else
    let v := version.getD CURRENT_VERSION
    if v = "1.0" then .ok (wti * 0.014 + 0.35)
    else if v = "1.1" then .ok (wti * 0.0145 + 0.32)
    else if v = "1.2" then .ok (wti * 0.014 + 0.35 + wti * 0.0001)
    else .error "Versão de fórmula inválida"

example : calculate_pp_fob_usd 70 none = .ok 1.337 := by
  norm_num +decide [calculate_pp_fob_usd, CURRENT_VERSION]
example : calculate_pp_fob_usd 70 (some "1.0") = .ok 1.33 := by
  norm_num +decide [calculate_pp_fob_usd, CURRENT_VERSION]

/-- C3 counterexample: feeding the reference index 70 to the step-1 base-price
computation with no formula version does **not** return `70 * 0.014 + 0.35 = 1.33`:
the default version is `"1.2"`, whose non-linear term gives `1.337`. -/
theorem C3_default_formula_counterexample :
    calculate_pp_fob_usd 70 none = .ok 1.337 ∧ (1.337 : ℚ) ≠ 70 * 0.014 + 0.35 := by
  constructor
  · norm_num +decide [calculate_pp_fob_usd, CURRENT_VERSION]
  · norm_num

/-- C3 (amended): for every positive reference index price `w`, the default
(current-version) step-1 base-price computation uses version `"1.2"` and returns
`w * 0.014 + 0.35 + w * 0.0001`; the plain pair `(0.014, 0.35)` is the
behaviour of version `"1.0"`. -/
theorem C3_default_formula_amended (w : ℚ) (hw : 0 < w) :
    calculate_pp_fob_usd w none = .ok (w * 0.014 + 0.35 + w * 0.0001) ∧
    calculate_pp_fob_usd w (some "1.0") = .ok (w * 0.014 + 0.35) := by
  have hne : ¬ w ≤ 0 := not_le.mpr hw
  constructor
  · simp [calculate_pp_fob_usd, hne, CURRENT_VERSION]
  · simp [calculate_pp_fob_usd, hne]

/-- Witness for `C3_default_formula_amended` at `w = 70`. -/
theorem C3_default_formula_amended_witness :
    calculate_pp_fob_usd 70 none = .ok (70 * 0.014 + 0.35 + 70 * 0.0001) ∧
    calculate_pp_fob_usd 70 (some "1.0") = .ok (70 * 0.014 + 0.35) :=
  C3_default_formula_amended 70 (by norm_num)

-- ===========================================================================
-- A pandas DataFrame, column-oriented
-- ===========================================================================

/-- A pandas cell: `none` is a missing / non-finite value (`NaN`, `±Inf`). -/
abbrev Cell := Option ℚ

/-- A pandas column of cells. -/
abbrev Col := List Cell

/-- A pandas DataFrame: ordered, named columns (all of the row-count length in
a well-formed frame). -/
abbrev ColFrame := List (String × Col)

/-- `len(df)`: the number of rows, read off the first column. -/
def nrows (df : ColFrame) : Nat :=
  match df with
  | [] => 0
  | c :: _ => c.2.length

/-- `name in df.columns`. -/
def hasCol (df : ColFrame) (n : String) : Bool :=
  df.any (fun c => c.1 = n)

/-- `df[name]`, as an `Option` (a missing column is a `KeyError`). -/
def getCol (df : ColFrame) (n : String) : Option Col :=
  (df.find? (fun c => c.1 = n)).map (fun c => c.2)

/-- `df[name] = v`: pandas column assignment — replaces the first column of
that name in place, otherwise appends the new column at the end. -/
def setCol (df : ColFrame) (n : String) (v : Col) : ColFrame :=
  match df with
  | [] => [(n, v)]
  | c :: rest => if c.1 = n then (n, v) :: rest else c :: setCol rest n v

/-- Column names, in order. -/
def colNames (df : ColFrame) : List String := df.map (fun c => c.1)

/-- Well-formed frame: every column has the row-count length. -/
def WF (df : ColFrame) : Prop := ∀ c ∈ df, c.2.length = nrows df

/-- Lift a unary float operation to a cell (NaN propagates). -/
def liftC (f : ℚ → ℚ) : Cell → Cell := Option.map f

/-- Lift a binary float operation to cells (NaN propagates). -/
def liftC2 (f : ℚ → ℚ → ℚ) : Cell → Cell → Cell
  | some a, some b => some (f a b)
  | _, _ => none

/-- Cell divided by a scalar: a zero denominator produces `inf`/`nan` in the
source's float arithmetic, i.e. a non-finite cell. -/
def divC (c : Cell) (d : ℚ) : Cell :=
  match c with
  | some a => if d = 0 then none else some (a / d)
  | none => none

-- ===========================================================================
-- `calculate_cost_buildup` (data_engine.py lines 473-513)
-- ===========================================================================

/-- `df['PP_FOB_USD'] + (ocean_freight / 1000)` (line 506). -/
def cfrCol (pp : Col) (ocean_freight : ℚ) : Col :=
  pp.map (liftC (fun a => a + ocean_freight / 1000))

/-- `df['CFR_USD'] * df['USD_BRL'] * 1.12` (line 507). -/
def landedCol (cfr usd : Col) : Col :=
  List.zipWith (liftC2 (fun c u => c * u * 1.12)) cfr usd

/-- `df['PP_Price'].rolling(window=7).mean()` (line 511): entry `i` is the mean
of entries `i-6 .. i`, defined only from the 7th entry on and only when the
whole window is finite (`min_periods` defaults to the window size). -/
def rollingMean7 (v : Col) : Col :=
  (List.range v.length).map (fun i =>
    if 6 ≤ i then
      let w := (v.drop (i - 6)).take 7
      if w.all (fun c => c.isSome) then
        some ((w.map (fun c => c.getD 0)).sum / 7)
      else none
    else none)

/-- `calculate_cost_buildup` (data_engine.py lines 473-513): an empty frame is
returned as is; a frame missing `PP_FOB_USD` or `USD_BRL` raises `ValueError`;
otherwise the frame is copied (`df = df.copy()`, line 497 — the caller's frame
is never mutated, hence a pure function of the input) and the six derived
columns are assigned in order. -/
def calculate_cost_buildup (df : ColFrame)
    (ocean_freight freight_internal icms_pct margin_pct : ℚ) :
    Except String ColFrame :=
  if nrows df = 0 then .ok df
  else
    match getCol df "PP_FOB_USD", getCol df "USD_BRL" with
    | some pp, some usd =>
      let cfr := cfrCol pp ocean_freight
      let landed := landedCol cfr usd
      let oper := landed.map (liftC (fun a => a + freight_internal))
      let net := oper.map (liftC (fun a => a * (1 + margin_pct / 100)))
      let price := net.map (fun c => divC c (1 - icms_pct / 100))
      let trend := rollingMean7 price
      .ok (setCol (setCol (setCol (setCol (setCol (setCol df
            "CFR_USD" cfr) "Landed_BRL" landed) "Operational_Cost" oper)
            "Price_Net" net) "PP_Price" price) "Trend" trend)
    | _, _ => .error "Colunas necessárias faltando"

/-- Column `name` of the result of the cost buildup (`none` when the buildup
raised or the column is absent). -/
def colOf (df : ColFrame) (ocean_freight freight_internal icms_pct margin_pct : ℚ)
    (name : String) : Option Col :=
  match calculate_cost_buildup df ocean_freight freight_internal icms_pct margin_pct with
  | .ok f => getCol f name
  | .error _ => none

/-- A market series as a frame, from its base-price and fx columns. -/
def mkFrame (pp usd : List ℚ) : ColFrame :=
  [("PP_FOB_USD", pp.map some), ("USD_BRL", usd.map some)]

/-- C2: the worked example.  One observation with `internationalBasePrice = 1.33`
and `fxRate = 5.0`; cascade with `oceanFreight = 60`, `internalFreight = 0.15`,
`marginPct = 10`, `taxRatePct = 18` gives CFR 1.39, landed 7.784, operational
7.934, net 8.7274 and a final price `43637/4100 = 10.64317…`, within `1e-3` of
10.643. -/
theorem C2_worked_example :
    colOf (mkFrame [1.33] [5]) 60 0.15 18 10 "CFR_USD" = some [some 1.39] ∧
    colOf (mkFrame [1.33] [5]) 60 0.15 18 10 "Landed_BRL" = some [some 7.784] ∧
    colOf (mkFrame [1.33] [5]) 60 0.15 18 10 "Operational_Cost" = some [some 7.934] ∧
    colOf (mkFrame [1.33] [5]) 60 0.15 18 10 "Price_Net" = some [some 8.7274] ∧
    colOf (mkFrame [1.33] [5]) 60 0.15 18 10 "PP_Price" = some [some (43637/4100)] ∧
    |(43637/4100 : ℚ) - 10.643| ≤ 1/1000 := by
  refine ⟨?_, ?_, ?_, ?_, ?_, ?_⟩ <;>
    norm_num +decide [colOf, calculate_cost_buildup, mkFrame, nrows, getCol, setCol,
      cfrCol, landedCol, rollingMean7, liftC, liftC2, divC, List.find?, abs]

/-- Did the call return normally (no exception)? -/
def isOkB (r : Except String ColFrame) : Bool :=
  match r with
  | .ok _ => true
  | .error _ => false

/-- C1 counterexample: with `taxRatePct = 100` the cost buildup does **not**
raise — there is no `ParameterError` (or any tax-rate check) in the code.  The
call returns normally and the full cascade has executed; the final-price column
is non-finite (`8.7274 / (1 - 100/100)` divides by zero, i.e. the invalid rate
surfaces exactly through Inf/NaN propagation in the output). -/
theorem C1_no_tax_guard_counterexample :
    isOkB (calculate_cost_buildup (mkFrame [1.33] [5]) 60 0.15 100 10) = true ∧
    colOf (mkFrame [1.33] [5]) 60 0.15 100 10 "PP_Price" = some [none] ∧
    colOf (mkFrame [1.33] [5]) 60 0.15 100 10 "Price_Net" = some [some 8.7274] := by
  refine ⟨?_, ?_, ?_⟩ <;>
    norm_num +decide [isOkB, colOf, calculate_cost_buildup, mkFrame, nrows, getCol, setCol,
      cfrCol, landedCol, rollingMean7, liftC, liftC2, divC, List.find?]

/-- Dividing a cell by a zero denominator is always non-finite. -/
theorem divC_zero (c : Cell) : divC c 0 = none := by
  cases c <;> simp [divC]

/-- A whole column divided by a zero denominator is non-finite everywhere. -/
theorem map_divC_zero (l : Col) :
    l.map (fun c => divC c 0) = List.replicate l.length none := by
  induction l with
  | nil => rfl
  | cons a t ih => simp [divC_zero, ih, List.replicate_succ]

/-- C1 (amended): `calculate_cost_buildup` performs no tax-rate validation and
the repository defines no `ParameterError`.  For every non-empty series and any
cost parameters with `taxRatePct = 100`, the call returns normally, the whole
cascade having executed, and every entry of the final-price column is
non-finite: the invalid tax rate is discovered via Inf/NaN propagation in the
output, never via an early typed error. -/
theorem C1_no_tax_guard_amended (pp usd : List ℚ) (ocean_freight freight_internal margin_pct : ℚ)
    (hne : pp ≠ []) (hlen : pp.length = usd.length) :
    isOkB (calculate_cost_buildup (mkFrame pp usd)
        ocean_freight freight_internal 100 margin_pct) = true ∧
    colOf (mkFrame pp usd) ocean_freight freight_internal 100 margin_pct "PP_Price" =
      some (List.replicate pp.length none) := by
  obtain ⟨a, as, rfl⟩ : ∃ a as, pp = a :: as := by
    cases pp with
    | nil => exact absurd rfl hne
    | cons a as => exact ⟨a, as, rfl⟩
  have hz : (1 - (100 : ℚ) / 100) = 0 := by norm_num
  constructor
  · simp +decide [isOkB, calculate_cost_buildup, mkFrame, nrows, getCol]
  · have hmap : ∀ (f : Cell → Cell) (l : Col),
        l.map (fun x => divC (f x) 0) = List.replicate l.length none := by
      intro f l
      induction l with
      | nil => rfl
      | cons x t ih => simp [divC_zero, ih, List.replicate_succ]
    simp +decide [colOf, calculate_cost_buildup, mkFrame, nrows, getCol, setCol, hz,
      cfrCol, landedCol, liftC]
    rw [Function.comp_def, hmap]
    have husd : usd.length = as.length + 1 := by
      simpa using hlen.symm
    simp [List.length_zipWith, husd]

/-- Witness for `C1_no_tax_guard_amended` on a one-observation series. -/
theorem C1_no_tax_guard_amended_witness :
    isOkB (calculate_cost_buildup (mkFrame [1.33] [5]) 60 0.15 100 10) = true ∧
    colOf (mkFrame [1.33] [5]) 60 0.15 100 10 "PP_Price" =
      some (List.replicate ([(1.33 : ℚ)].length) none) :=
  C1_no_tax_guard_amended [1.33] [5] 60 0.15 10 (by simp) (by simp)

-- ===========================================================================
-- C4: monotonicity of the cascade
-- ===========================================================================

/-- The scalar cascade of lines 506-510 for one observation: the final price
as a function of the base price, fx rate and the four cost parameters. -/
def finalPriceQ (pp usd ocean_freight freight_internal icms_pct margin_pct : ℚ) : ℚ :=
  ((pp + ocean_freight / 1000) * usd * 1.12 + freight_internal)
    * (1 + margin_pct / 100) / (1 - icms_pct / 100)

/-- The composed column pipeline of lines 506-510, on finite columns, is the
scalar cascade applied pointwise. -/
theorem price_chain (l1 l2 : List ℚ) (ocean_freight freight_internal icms_pct margin_pct : ℚ)
    (ht : (1 : ℚ) - icms_pct / 100 ≠ 0) :
    ((((landedCol (cfrCol (l1.map some) ocean_freight) (l2.map some)).map
        (liftC (fun a => a + freight_internal))).map
        (liftC (fun a => a * (1 + margin_pct / 100)))).map
        (fun c => divC c (1 - icms_pct / 100)))
      = (List.zipWith
          (fun a b => finalPriceQ a b ocean_freight freight_internal icms_pct margin_pct)
          l1 l2).map some := by
  induction l1 generalizing l2 with
  | nil => simp [cfrCol, landedCol]
  | cons a as ih =>
    cases l2 with
    | nil => simp [cfrCol, landedCol]
    | cons b bs =>
      simp only [List.map_cons, cfrCol, landedCol, List.zipWith_cons_cons, liftC, liftC2,
        Option.map_some, divC, ht, if_neg, finalPriceQ]
      refine congrArg₂ List.cons ?_ ?_
      · simp [ht]
      · simpa [cfrCol, landedCol, liftC, liftC2, divC, ht, finalPriceQ] using ih bs

/-- For a series with finite base prices and fx rates and a tax rate below
100%, the cost buildup succeeds and the final-price column is exactly the
scalar cascade applied pointwise. -/
theorem colOf_price_eq (pp usd : List ℚ) (ocean_freight freight_internal icms_pct margin_pct : ℚ)
    (hne : pp ≠ []) (ht : (1 : ℚ) - icms_pct / 100 ≠ 0) :
    colOf (mkFrame pp usd) ocean_freight freight_internal icms_pct margin_pct "PP_Price" =
      some ((List.zipWith
        (fun a b => finalPriceQ a b ocean_freight freight_internal icms_pct margin_pct)
        pp usd).map some) := by
  obtain ⟨a, as, rfl⟩ : ∃ a as, pp = a :: as := by
    cases pp with
    | nil => exact absurd rfl hne
    | cons a as => exact ⟨a, as, rfl⟩
  have key := price_chain (a :: as) usd ocean_freight freight_internal icms_pct margin_pct ht
  simp +decide [colOf, calculate_cost_buildup, mkFrame, nrows, getCol, setCol]
  simpa using key

theorem finalPriceQ_mono_ocean (pp usd fi t m : ℚ) {a b : ℚ}
    (hu : 0 < usd) (hm : 0 ≤ m) (ht1 : t < 100) (h : a < b) :
    finalPriceQ pp usd a fi t m < finalPriceQ pp usd b fi t m := by
  have hd : (0 : ℚ) < 1 - t / 100 := by linarith
  have h2 : (0 : ℚ) < 1 + m / 100 := by linarith
  unfold finalPriceQ
  rw [div_lt_div_iff₀ hd hd]
  have h1 : (0 : ℚ) < (b - a) / 1000 := by linarith
  nlinarith [mul_pos (mul_pos h1 hu) h2, mul_pos (mul_pos (mul_pos h1 hu) h2) hd]

theorem finalPriceQ_mono_internal (pp usd of t m : ℚ) {a b : ℚ}
    (hm : 0 ≤ m) (ht1 : t < 100) (h : a < b) :
    finalPriceQ pp usd of a t m < finalPriceQ pp usd of b t m := by
  have hd : (0 : ℚ) < 1 - t / 100 := by linarith
  have h2 : (0 : ℚ) < 1 + m / 100 := by linarith
  unfold finalPriceQ
  rw [div_lt_div_iff₀ hd hd]
  nlinarith [mul_pos (mul_pos (show (0:ℚ) < b - a by linarith) h2) hd]

theorem finalPriceQ_mono_margin (pp usd of fi t : ℚ) {a b : ℚ}
    (hpp : 0 < pp) (hu : 0 < usd) (hof : 0 ≤ of) (hfi : 0 ≤ fi)
    (ht1 : t < 100) (h : a < b) :
    finalPriceQ pp usd of fi t a < finalPriceQ pp usd of fi t b := by
  have hd : (0 : ℚ) < 1 - t / 100 := by linarith
  have hbase : (0 : ℚ) < pp + of / 1000 := by linarith
  have hop : (0 : ℚ) < (pp + of / 1000) * usd * 1.12 + fi := by
    nlinarith [mul_pos hbase hu]
  unfold finalPriceQ
  rw [div_lt_div_iff₀ hd hd]
  nlinarith [mul_pos (mul_pos hop (show (0:ℚ) < (b - a) / 100 by linarith)) hd]

theorem finalPriceQ_mono_tax (pp usd of fi m : ℚ) {a b : ℚ}
    (hpp : 0 < pp) (hu : 0 < usd) (hof : 0 ≤ of) (hfi : 0 ≤ fi) (hm : 0 ≤ m)
    (hb : b < 100) (h : a < b) :
    finalPriceQ pp usd of fi a m < finalPriceQ pp usd of fi b m := by
  have hd : (0 : ℚ) < 1 - a / 100 := by linarith
  have hd' : (0 : ℚ) < 1 - b / 100 := by linarith
  have hbase : (0 : ℚ) < pp + of / 1000 := by linarith
  have hnet : (0 : ℚ) < ((pp + of / 1000) * usd * 1.12 + fi) * (1 + m / 100) := by
    nlinarith [mul_pos hbase hu]
  unfold finalPriceQ
  rw [div_lt_div_iff₀ hd hd']
  nlinarith [mul_pos hnet (show (0:ℚ) < (b - a) / 100 by linarith)]

/-- C4: for every series whose base price and fx rate are positive at every
point, and cost parameters with `oceanFreightUSD ≥ 0`, `internalFreight ≥ 0`,
`marginPct ≥ 0` and `taxRatePct ∈ [0, 100)` (the spec's `CostParameters`
domain), the final-price column of the cost buildup is the pointwise scalar
cascade, and strictly increasing any one of the four parameters while holding
the other three fixed strictly increases the final price at every point of the
series. -/
theorem C4_monotonicity (pp usd : List ℚ)
    (hlen : pp.length = usd.length) (hne : pp ≠ [])
    (hpp : ∀ x ∈ pp, 0 < x) (husd : ∀ x ∈ usd, 0 < x)
    (of of' fi fi' t t' m m' : ℚ)
    (hof : 0 ≤ of) (hof' : 0 ≤ of') (hfi : 0 ≤ fi) (hfi' : 0 ≤ fi')
    (hm : 0 ≤ m) (hm' : 0 ≤ m')
    (ht0 : 0 ≤ t) (ht1 : t < 100) (ht0' : 0 ≤ t') (ht1' : t' < 100) :
    colOf (mkFrame pp usd) of fi t m "PP_Price" =
      some ((List.zipWith (fun a b => finalPriceQ a b of fi t m) pp usd).map some) ∧
    ∀ p ∈ List.zip pp usd,
      (of < of' → finalPriceQ p.1 p.2 of fi t m < finalPriceQ p.1 p.2 of' fi t m) ∧
      (fi < fi' → finalPriceQ p.1 p.2 of fi t m < finalPriceQ p.1 p.2 of fi' t m) ∧
      (m < m' → finalPriceQ p.1 p.2 of fi t m < finalPriceQ p.1 p.2 of fi t m') ∧
      (t < t' → finalPriceQ p.1 p.2 of fi t m < finalPriceQ p.1 p.2 of fi t' m) := by
  have hd : (0 : ℚ) < 1 - t / 100 := by linarith
  constructor
  · exact colOf_price_eq pp usd of fi t m hne (ne_of_gt hd)
  · intro p hp
    have hp1 : p.1 ∈ pp := (List.of_mem_zip hp).1
    have hp2 : p.2 ∈ usd := (List.of_mem_zip hp).2
    have h1 := hpp _ hp1
    have h2 := husd _ hp2
    exact ⟨fun h => finalPriceQ_mono_ocean p.1 p.2 fi t m h2 hm ht1 h,
      fun h => finalPriceQ_mono_internal p.1 p.2 of t m hm ht1 h,
      fun h => finalPriceQ_mono_margin p.1 p.2 of fi t h1 h2 hof hfi ht1 h,
      fun h => finalPriceQ_mono_tax p.1 p.2 of fi m h1 h2 hof hfi hm ht1' h⟩

/-- Witness for `C4_monotonicity`: one observation with base 1.33 and fx 5,
comparing the base parameters (60, 0.15, 18, 10) against increases of each
single parameter. -/
theorem C4_monotonicity_witness :
    colOf (mkFrame [1.33] [5]) 60 0.15 18 10 "PP_Price" =
      some ((List.zipWith (fun a b => finalPriceQ a b 60 0.15 18 10) [1.33] [5]).map some) ∧
    finalPriceQ 1.33 5 60 0.15 18 10 < finalPriceQ 1.33 5 70 0.15 18 10 ∧
    finalPriceQ 1.33 5 60 0.15 18 10 < finalPriceQ 1.33 5 60 0.2 18 10 ∧
    finalPriceQ 1.33 5 60 0.15 18 10 < finalPriceQ 1.33 5 60 0.15 18 12 ∧
    finalPriceQ 1.33 5 60 0.15 18 10 < finalPriceQ 1.33 5 60 0.15 20 10 := by
  have H := C4_monotonicity [1.33] [5] (by norm_num) (by simp)
    (by intro x hx; simp at hx; simp [hx]; norm_num)
    (by intro x hx; simp at hx; simp [hx])
    60 70 0.15 0.2 18 20 10 12
    (by norm_num) (by norm_num) (by norm_num) (by norm_num) (by norm_num)
    (by norm_num) (by norm_num) (by norm_num) (by norm_num) (by norm_num)
  have hmem : ((1.33 : ℚ), (5 : ℚ)) ∈ List.zip [(1.33 : ℚ)] [(5 : ℚ)] := by simp
  have h3 := H.2 _ hmem
  exact ⟨H.1, h3.1 (by norm_num), h3.2.1 (by norm_num),
    h3.2.2.1 (by norm_num), h3.2.2.2 (by norm_num)⟩

-- ===========================================================================
-- C10: frame effect of `calculate_cost_buildup`
-- ===========================================================================

/-- The six derived columns assigned by the cost buildup, in assignment order. -/
def derivedNames : List String :=
  ["CFR_USD", "Landed_BRL", "Operational_Cost", "Price_Net", "PP_Price", "Trend"]

theorem find?_setCol_ne (df : ColFrame) (n n' : String) (v : Col) (h : n' ≠ n) :
    List.find? (fun c => c.1 = n') (setCol df n v) = List.find? (fun c => c.1 = n') df := by
  induction df with
  | nil => simp [setCol, List.find?, Ne.symm h]
  | cons c rest ih =>
    by_cases hc : c.1 = n
    · have hcn : ¬ (c.1 = n') := by rw [hc]; exact Ne.symm h
      simp [setCol, hc, List.find?, Ne.symm h, hcn]
    · by_cases hcc : c.1 = n'
      · simp [setCol, hc, List.find?, hcc, h]
      · simp [setCol, hc, List.find?, hcc, ih]

theorem getCol_setCol_ne (df : ColFrame) (n n' : String) (v : Col) (h : n' ≠ n) :
    getCol (setCol df n v) n' = getCol df n' := by
  simp [getCol, find?_setCol_ne df n n' v h]

theorem find?_setCol_self (df : ColFrame) (n : String) (v : Col) :
    List.find? (fun c => c.1 = n) (setCol df n v) = some (n, v) := by
  induction df with
  | nil => simp [setCol, List.find?]
  | cons c rest ih =>
    by_cases hc : c.1 = n
    · simp [setCol, hc, List.find?]
    · simp [setCol, hc, List.find?, ih]

theorem getCol_setCol_self (df : ColFrame) (n : String) (v : Col) :
    getCol (setCol df n v) n = some v := by
  simp [getCol, find?_setCol_self df n v]

theorem mem_setCol (df : ColFrame) (n : String) (v : Col) (c : String × Col)
    (h : c ∈ setCol df n v) : c ∈ df ∨ c = (n, v) := by
  induction df with
  | nil => simp [setCol] at h; simp [h]
  | cons d rest ih =>
    by_cases hd : d.1 = n
    · simp [setCol, hd] at h
      rcases h with h | h
      · exact Or.inr (by simp [h])
      · exact Or.inl (List.mem_cons_of_mem _ h)
    · simp [setCol, hd] at h
      rcases h with h | h
      · exact Or.inl (by simp [h])
      · rcases ih h with h' | h'
        · exact Or.inl (List.mem_cons_of_mem _ h')
        · exact Or.inr h'

theorem colNames_cons (c : String × Col) (l : ColFrame) :
    colNames (c :: l) = c.1 :: colNames l := rfl

theorem colNames_setCol (df : ColFrame) (n : String) (v : Col) :
    colNames (setCol df n v) =
      if n ∈ colNames df then colNames df else colNames df ++ [n] := by
  induction df with
  | nil => simp [colNames, setCol]
  | cons c rest ih =>
    by_cases hc : c.1 = n
    · simp [setCol, hc, colNames_cons]
    · by_cases hmem : n ∈ colNames rest
      · simp only [setCol, if_neg hc, colNames_cons, ih, if_pos hmem]
        rw [if_pos (List.mem_cons_of_mem _ hmem)]
      · simp only [setCol, if_neg hc, colNames_cons, ih, if_neg hmem]
        rw [if_neg (by simp [List.mem_cons, hmem, Ne.symm hc])]
        simp

theorem mem_colNames_setCol (df : ColFrame) (n n' : String) (v : Col)
    (h : n' ∈ colNames df) : n' ∈ colNames (setCol df n v) := by
  rw [colNames_setCol]
  split
  · exact h
  · exact List.mem_append_left _ h

theorem colNames_setCol_sub (df : ColFrame) (n n' : String) (v : Col)
    (h : n' ∈ colNames (setCol df n v)) : n' ∈ colNames df ∨ n' = n := by
  rw [colNames_setCol] at h
  split at h
  · exact Or.inl h
  · rcases List.mem_append.mp h with h' | h'
    · exact Or.inl h'
    · exact Or.inr (by simpa using h')

theorem length_rollingMean7 (v : Col) : (rollingMean7 v).length = v.length := by
  simp [rollingMean7]

theorem getCol_mem (df : ColFrame) (n : String) (v : Col) (h : getCol df n = some v) :
    ∃ c ∈ df, c.2 = v := by
  simp only [getCol, Option.map_eq_some'] at h
  obtain ⟨c, hc, hv⟩ := h
  exact ⟨c, List.mem_of_find?_eq_some hc, hv⟩

/-- C10 (amended): `calculate_cost_buildup` works on a copy (`df.copy()`), so the
caller's frame is never mutated — the embedding is accordingly a pure function
of the input frame.  An empty frame is returned unchanged (without the derived
columns).  For a non-empty well-formed frame the result keeps every column not
named like one of the six derived columns with identical values, keeps all
original column names, adds no names beyond the derived ones, holds all six
derived columns, and every column of the result still has the original row
count.  (A pre-existing input column named like a derived column is overwritten
— the one deviation from the claim as stated.) -/
theorem C10_frame_effect_amended (df : ColFrame) (of fi t m : ℚ) (F : ColFrame)
    (hwf : WF df) (hok : calculate_cost_buildup df of fi t m = .ok F) :
    (nrows df = 0 → F = df) ∧
    (nrows df ≠ 0 →
      (∀ nm, nm ∉ derivedNames → getCol F nm = getCol df nm) ∧
      (∀ nm ∈ colNames df, nm ∈ colNames F) ∧
      (∀ nm ∈ colNames F, nm ∈ colNames df ∨ nm ∈ derivedNames) ∧
      (∀ nm ∈ derivedNames, ∃ v, getCol F nm = some v) ∧
      (∀ c ∈ F, c.2.length = nrows df)) := by
  unfold calculate_cost_buildup at hok
  by_cases h0 : nrows df = 0
  · rw [if_pos h0] at hok
    have hF : F = df := (Except.ok.inj hok).symm
    exact ⟨fun _ => hF, fun hn => absurd h0 hn⟩
  · rw [if_neg h0] at hok
    refine ⟨fun hz => absurd hz h0, fun _ => ?_⟩
    cases hpp : getCol df "PP_FOB_USD" with
    | none =>
      rw [hpp] at hok
      cases husd : getCol df "USD_BRL" <;> rw [husd] at hok <;> simp at hok
    | some pp =>
      cases husd : getCol df "USD_BRL" with
      | none => rw [hpp, husd] at hok; simp at hok
      | some usd =>
        rw [hpp, husd] at hok
        have hF : F = setCol (setCol (setCol (setCol (setCol (setCol df
            "CFR_USD" (cfrCol pp of))
            "Landed_BRL" (landedCol (cfrCol pp of) usd))
            "Operational_Cost" ((landedCol (cfrCol pp of) usd).map (liftC (fun a => a + fi))))
            "Price_Net" (((landedCol (cfrCol pp of) usd).map (liftC (fun a => a + fi))).map
              (liftC (fun a => a * (1 + m / 100)))))
            "PP_Price" ((((landedCol (cfrCol pp of) usd).map (liftC (fun a => a + fi))).map
              (liftC (fun a => a * (1 + m / 100)))).map (fun c => divC c (1 - t / 100))))
            "Trend" (rollingMean7 ((((landedCol (cfrCol pp of) usd).map
              (liftC (fun a => a + fi))).map (liftC (fun a => a * (1 + m / 100)))).map
              (fun c => divC c (1 - t / 100)))) :=
          (Except.ok.inj hok).symm
        have lp : pp.length = nrows df := by
          obtain ⟨cp, hcp, hv⟩ := getCol_mem df _ _ hpp
          rw [← hv]; exact hwf _ hcp
        have lu : usd.length = nrows df := by
          obtain ⟨cu, hcu, hv⟩ := getCol_mem df _ _ husd
          rw [← hv]; exact hwf _ hcu
        refine ⟨?_, ?_, ?_, ?_, ?_⟩
        · intro nm hnm
          simp only [derivedNames, List.mem_cons, List.mem_singleton, not_or] at hnm
          obtain ⟨h1, h2, h3, h4, h5, h6, -⟩ := hnm
          rw [hF, getCol_setCol_ne _ _ _ _ h6, getCol_setCol_ne _ _ _ _ h5,
            getCol_setCol_ne _ _ _ _ h4, getCol_setCol_ne _ _ _ _ h3,
            getCol_setCol_ne _ _ _ _ h2, getCol_setCol_ne _ _ _ _ h1]
        · intro nm h
          rw [hF]
          exact mem_colNames_setCol _ _ _ _ (mem_colNames_setCol _ _ _ _
            (mem_colNames_setCol _ _ _ _ (mem_colNames_setCol _ _ _ _
            (mem_colNames_setCol _ _ _ _ (mem_colNames_setCol _ _ _ _ h)))))
        · intro nm h
          rw [hF] at h
          rcases colNames_setCol_sub _ _ _ _ h with h | rfl
          rotate_left
          · exact Or.inr (by simp [derivedNames])
          rcases colNames_setCol_sub _ _ _ _ h with h | rfl
          rotate_left
          · exact Or.inr (by simp [derivedNames])
          rcases colNames_setCol_sub _ _ _ _ h with h | rfl
          rotate_left
          · exact Or.inr (by simp [derivedNames])
          rcases colNames_setCol_sub _ _ _ _ h with h | rfl
          rotate_left
          · exact Or.inr (by simp [derivedNames])
          rcases colNames_setCol_sub _ _ _ _ h with h | rfl
          rotate_left
          · exact Or.inr (by simp [derivedNames])
          rcases colNames_setCol_sub _ _ _ _ h with h | rfl
          rotate_left
          · exact Or.inr (by simp [derivedNames])
          exact Or.inl h
        · intro nm hm
          simp only [derivedNames, List.mem_cons, List.mem_singleton] at hm
          rcases hm with rfl | rfl | rfl | rfl | rfl | rfl | hm
          · exact ⟨_, by rw [hF, getCol_setCol_ne _ _ _ _ (by decide),
              getCol_setCol_ne _ _ _ _ (by decide), getCol_setCol_ne _ _ _ _ (by decide),
              getCol_setCol_ne _ _ _ _ (by decide), getCol_setCol_ne _ _ _ _ (by decide),
              getCol_setCol_self]⟩
          · exact ⟨_, by rw [hF, getCol_setCol_ne _ _ _ _ (by decide),
              getCol_setCol_ne _ _ _ _ (by decide), getCol_setCol_ne _ _ _ _ (by decide),
              getCol_setCol_ne _ _ _ _ (by decide), getCol_setCol_self]⟩
          · exact ⟨_, by rw [hF, getCol_setCol_ne _ _ _ _ (by decide),
              getCol_setCol_ne _ _ _ _ (by decide), getCol_setCol_ne _ _ _ _ (by decide),
              getCol_setCol_self]⟩
          · exact ⟨_, by rw [hF, getCol_setCol_ne _ _ _ _ (by decide),
              getCol_setCol_ne _ _ _ _ (by decide), getCol_setCol_self]⟩
          · exact ⟨_, by rw [hF, getCol_setCol_ne _ _ _ _ (by decide), getCol_setCol_self]⟩
          · exact ⟨_, by rw [hF, getCol_setCol_self]⟩
          · cases hm
        · intro c hc
          rw [hF] at hc
          rcases mem_setCol _ _ _ _ hc with hc | rfl
          rotate_left
          · simp [length_rollingMean7, cfrCol, landedCol, List.length_zipWith, lp, lu]
          rcases mem_setCol _ _ _ _ hc with hc | rfl
          rotate_left
          · simp [cfrCol, landedCol, List.length_zipWith, lp, lu]
          rcases mem_setCol _ _ _ _ hc with hc | rfl
          rotate_left
          · simp [cfrCol, landedCol, List.length_zipWith, lp, lu]
          rcases mem_setCol _ _ _ _ hc with hc | rfl
          rotate_left
          · simp [cfrCol, landedCol, List.length_zipWith, lp, lu]
          rcases mem_setCol _ _ _ _ hc with hc | rfl
          rotate_left
          · simp [cfrCol, landedCol, List.length_zipWith, lp, lu]
          rcases mem_setCol _ _ _ _ hc with hc | rfl
          rotate_left
          · simp [cfrCol, lp]
          exact hwf _ hc

/-- Witness for `C10_frame_effect_amended` on a concrete one-row frame with an
extra caller column. -/
theorem C10_frame_effect_amended_witness :
    getCol [("PP_FOB_USD", [some (1.33 : ℚ)]), ("USD_BRL", [some 5]), ("Extra", [some 3]),
        ("CFR_USD", [some 1.39]), ("Landed_BRL", [some 7.784]),
        ("Operational_Cost", [some 7.934]), ("Price_Net", [some 8.7274]),
        ("PP_Price", [some (43637/4100)]), ("Trend", [none])] "Extra" =
      getCol [("PP_FOB_USD", [some (1.33 : ℚ)]), ("USD_BRL", [some 5]), ("Extra", [some 3])]
        "Extra" ∧
    "Extra" ∈ colNames [("PP_FOB_USD", [some (1.33 : ℚ)]), ("USD_BRL", [some 5]),
        ("Extra", [some 3]), ("CFR_USD", [some 1.39]), ("Landed_BRL", [some 7.784]),
        ("Operational_Cost", [some 7.934]), ("Price_Net", [some 8.7274]),
        ("PP_Price", [some (43637/4100)]), ("Trend", [none])] := by
  have hwf : WF [("PP_FOB_USD", [some (1.33 : ℚ)]), ("USD_BRL", [some 5]), ("Extra", [some 3])] := by
    intro c hc
    simp only [List.mem_cons, List.not_mem_nil, or_false] at hc
    rcases hc with rfl | rfl | rfl <;> simp [nrows]
  have hok : calculate_cost_buildup
      [("PP_FOB_USD", [some (1.33 : ℚ)]), ("USD_BRL", [some 5]), ("Extra", [some 3])]
      60 0.15 18 10 =
      .ok [("PP_FOB_USD", [some (1.33 : ℚ)]), ("USD_BRL", [some 5]), ("Extra", [some 3]),
        ("CFR_USD", [some 1.39]), ("Landed_BRL", [some 7.784]),
        ("Operational_Cost", [some 7.934]), ("Price_Net", [some 8.7274]),
        ("PP_Price", [some (43637/4100)]), ("Trend", [none])] := by
    norm_num +decide [calculate_cost_buildup, nrows, getCol, setCol, cfrCol, landedCol,
      rollingMean7, liftC, liftC2, divC, List.find?, List.range_succ]
  have H := C10_frame_effect_amended _ 60 0.15 18 10 _ hwf hok
  have h2 := H.2 (by simp [nrows])
  exact ⟨h2.1 "Extra" (by simp [derivedNames]), h2.2.1 "Extra" (by simp [colNames])⟩

/-- C10 counterexample: an input frame that already carries a column named
`CFR_USD` (value 999) does **not** come back with that original column intact —
the buildup overwrites it with the recomputed CFR values (1.33 + 60/1000 = 1.39),
so the returned series does not preserve *all* original columns. -/
theorem C10_frame_effect_counterexample :
    getCol [("PP_FOB_USD", [some (1.33 : ℚ)]), ("USD_BRL", [some 5]), ("CFR_USD", [some 999])]
      "CFR_USD" = some [some 999] ∧
    colOf [("PP_FOB_USD", [some (1.33 : ℚ)]), ("USD_BRL", [some 5]), ("CFR_USD", [some 999])]
      60 0.15 18 10 "CFR_USD" = some [some 1.39] ∧
    (some [some (1.39 : ℚ)] : Option Col) ≠ some [some 999] := by
  refine ⟨?_, ?_, ?_⟩
  · norm_num +decide [getCol, List.find?]
  · norm_num +decide [colOf, calculate_cost_buildup, nrows, getCol, setCol,
      cfrCol, landedCol, rollingMean7, liftC, liftC2, divC, List.find?]
  · norm_num

-- ===========================================================================
-- `validate_market_data` (data_engine.py lines 51-152)
-- ===========================================================================

/-- One row of a market-data frame after the validator's case-insensitive
column mapping and numeric/date coercion (lines 81-103): each required field
is `none` when the original value was missing or unparseable. -/
structure VRow where
  date : Option ℤ
  wti : Option ℚ
  usd_brl : Option ℚ
  pp_fob_usd : Option ℚ
deriving DecidableEq, Repr

/-- Insertion of a value into a sorted list (ascending). -/
def insertQ (x : ℚ) : List ℚ → List ℚ
  | [] => [x]
  | y :: ys => if x ≤ y then x :: y :: ys else y :: insertQ x ys

/-- Ascending sort, as pandas does before interpolating a quantile. -/
def sortQ (l : List ℚ) : List ℚ := l.foldr insertQ []

/-- `Series.quantile(q)` with pandas' default linear interpolation over the
non-null values: position `q·(n-1)`, linear between the two neighbours.
`none` on an all-null column (pandas returns NaN). -/
def quantileQ (xs : List ℚ) (q : ℚ) : Option ℚ :=
  let s := sortQ xs
  if s.length = 0 then none
  else
    let pos : ℚ := q * ((s.length : ℚ) - 1)
    let i : ℕ := (Int.floor pos).toNat
    let frac : ℚ := pos - Int.floor pos
    some (s.getD i 0 + frac * (s.getD (i + 1) 0 - s.getD i 0))

/-- The non-null values of a column. -/
def numericVals (cells : List (Option ℚ)) : List ℚ := cells.filterMap id

/-- IQR outlier flagging of lines 105-119: count the cells outside
`[Q1 - 1.5·IQR, Q3 + 1.5·IQR]` (nulls never compare true) and emit a warning
when `IQR > 0` and the count is positive.  Rows are never dropped here. -/
def iqrOutlierWarning (name : String) (cells : List (Option ℚ)) : List String :=
  match quantileQ (numericVals cells) 0.25, quantileQ (numericVals cells) 0.75 with
  | some q1, some q3 =>
    let iqr := q3 - q1
    if 0 < iqr then
      let cnt := cells.countP (fun c =>
        match c with
        | some v => decide (v < q1 - 1.5 * iqr ∨ q3 + 1.5 * iqr < v)
        | none => false)
      if 0 < cnt then [toString cnt ++ " outliers detectados em " ++ name] else []
    else []
  | _, _ => []

/-- Count of cells outside a closed domain range (lines 121-134; nulls never
compare true).  Rows are never dropped here either. -/
def outOfRangeCount (cells : List (Option ℚ)) (lo hi : ℚ) : ℕ :=
  cells.countP (fun c =>
    match c with
    | some v => decide (v < lo ∨ hi < v)
    | none => false)

/-- `drop_duplicates(subset=['date'], keep='last')` (line 139): a row survives
iff no later row has the same (possibly null) date. -/
def dedupLast : List VRow → List VRow
  | [] => []
  | r :: rest =>
    if rest.any (fun s => decide (s.date = r.date)) then dedupLast rest
    else r :: dedupLast rest

/-- `dropna(subset=['wti', 'usd_brl', 'date'])` keeps exactly these rows
(line 145 — note `pp_fob_usd` is *not* in the subset). -/
def hasRequired (r : VRow) : Bool := r.wti.isSome && r.usd_brl.isSome && r.date.isSome

/-- `validate_market_data` (data_engine.py lines 51-152) on rows that carry the
required columns (the case-insensitive column mapping and the coercions of
lines 69-103 are reflected in the `VRow` fields being `Option`-valued; an input
without the required columns raises before any of this, which
`get_market_data` below models at its call site).  Pipeline: empty check,
IQR outlier warnings, domain-range warnings, timestamp dedup (last wins),
drop of rows with null critical fields, empty-after-cleaning check. -/
def validate_market_data (rows : List VRow) : Except String (List VRow × List String) :=
  if rows = [] then .error "DataFrame vazio recebido para validação"
  else
    let w1 := iqrOutlierWarning "wti" (rows.map (fun r => r.wti))
      ++ iqrOutlierWarning "usd_brl" (rows.map (fun r => r.usd_brl))
      ++ iqrOutlierWarning "pp_fob_usd" (rows.map (fun r => r.pp_fob_usd))
    let wtiCnt := outOfRangeCount (rows.map (fun r => r.wti)) 10 250
    let w2 := if 0 < wtiCnt then
        ["WTI fora do range esperado (10-250 USD) em " ++ toString wtiCnt ++ " registros"]
      else []
    let usdCnt := outOfRangeCount (rows.map (fun r => r.usd_brl)) 2 10
    let w3 := if 0 < usdCnt then
        ["USD_BRL fora do range esperado (2-10) em " ++ toString usdCnt ++ " registros"]
      else []
    let deduped := dedupLast rows
    let w4 := if deduped.length < rows.length then
        ["Removidas " ++ toString (rows.length - deduped.length) ++ " duplicatas por data"]
      else []
    let cleaned := deduped.filter hasRequired
    let w5 := if cleaned.length < deduped.length then
        ["Removidas " ++ toString (deduped.length - cleaned.length) ++ " linhas com valores nulos"]
      else []
    if cleaned = [] then .error "Após validação, DataFrame ficou vazio"
    else .ok (cleaned, w1 ++ w2 ++ w3 ++ w4 ++ w5)

/-- C6: whenever validation succeeds on a non-empty input with the required
columns, the retained rows are exactly the input rows deduplicated by timestamp
(last occurrence wins) and then filtered to those with non-null `wti`,
`usd_brl` and `date` — IQR outliers and out-of-domain values only produce
warnings and are never dropped. -/
theorem C6_validator_retention (rows res : List VRow) (ws : List String)
    (hne : rows ≠ []) (h : validate_market_data rows = .ok (res, ws)) :
    res = (dedupLast rows).filter hasRequired := by
  unfold validate_market_data at h
  rw [if_neg hne] at h
  dsimp only [] at h
  split at h
  · exact absurd h (by simp)
  · exact (congrArg Prod.fst (Except.ok.inj h)).symm

/-- Witness for `C6_validator_retention`: a row with `wti = 99999` (out of
range) is retained; of the two rows sharing date 1 only the later survives;
the null-`wti` row is dropped. -/
theorem C6_validator_retention_witness :
    (match validate_market_data
        [⟨some 0, some 99999, some 5, some 1.2⟩, ⟨some 1, some 70, some 5, some 1.2⟩,
         ⟨some 1, some 71, some 5, some 1.2⟩, ⟨some 2, none, some 5, some 1.2⟩] with
     | .ok (c, _) =>
        c = (dedupLast
          [⟨some 0, some 99999, some 5, some 1.2⟩, ⟨some 1, some 70, some 5, some 1.2⟩,
           ⟨some 1, some 71, some 5, some 1.2⟩, ⟨some 2, none, some 5, some 1.2⟩]).filter
            hasRequired ∧
        c = [⟨some 0, some 99999, some 5, some 1.2⟩, ⟨some 1, some 71, some 5, some 1.2⟩]
     | .error _ => False) := by
  cases hv : validate_market_data
      [⟨some 0, some 99999, some 5, some 1.2⟩, ⟨some 1, some 70, some 5, some 1.2⟩,
       ⟨some 1, some 71, some 5, some 1.2⟩, ⟨some 2, none, some 5, some 1.2⟩] with
  | error e =>
    revert hv
    unfold validate_market_data
    rw [if_neg (by simp)]
    rw [if_neg (by norm_num +decide [dedupLast, hasRequired])]
    simp
  | ok p =>
    obtain ⟨c, w⟩ := p
    have hc := C6_validator_retention _ _ _ (by simp) hv
    refine ⟨hc, ?_⟩
    rw [hc]
    norm_num +decide [dedupLast, hasRequired]

-- ===========================================================================
-- `_fallback_yahoo_finance` (lines 242-293) and `get_market_data` (lines 300-466)
-- ===========================================================================

/-- The tier-3 synthetic placeholder frame (lines 262-268 and 287-293):
`pd.date_range(now - days_back, now, freq='D')` gives one row per day from
`now - days_back` to `now` inclusive, each with `WTI = 70`, `USD_BRL = 5.0`
and `PP_FOB_USD = 1.2`. -/
def mockRows (days_back : ℕ) (now : ℤ) : List VRow :=
  (List.range (days_back + 1)).map (fun (i : ℕ) =>
    ⟨some (now - (days_back : ℤ) + (i : ℤ)), some 70, some 5, some 1.2⟩)

/-- `_fallback_yahoo_finance` (lines 242-293).  `yf = none` models a raised
download (the outer `except` returns the mock frame); empty quote series also
yield the mock frame.  Otherwise the two close-price series are aligned by
date (`pd.concat(axis=1).dropna()`) and `PP_FOB_USD` is derived through the
centralised pricing formula at its current version; a `ValueError` raised
inside that formula (non-positive WTI) is caught by the outer `except` and
again produces the mock frame. -/
def fallback_yahoo_finance (days_back : ℕ) (now : ℤ)
    (yf : Option (List (ℤ × ℚ) × List (ℤ × ℚ))) : List VRow :=
  match yf with
  | none => mockRows days_back now
  | some (wti, brl) =>
    if wti = [] ∨ brl = [] then mockRows days_back now
    else
      let joined := wti.filterMap (fun p =>
        (brl.find? (fun b => decide (b.1 = p.1))).map (fun b => (p.1, p.2, b.2)))
      match joined.mapM (fun t =>
          (calculate_pp_fob_usd t.2.1 none).map
            (fun v => (⟨some t.1, some t.2.1, some t.2.2, some v⟩ : VRow))) with
      | .ok rows => rows
      | .error _ => mockRows days_back now

/-- Insertion into a list sorted by date. -/
def insertByDate (r : VRow) : List VRow → List VRow
  | [] => [r]
  | s :: ss => if r.date.getD 0 ≤ s.date.getD 0 then r :: s :: ss else s :: insertByDate r ss

/-- `set_index('Date').sort_index()` for tier-1 rows (stable sort by date). -/
def sortByDate (l : List VRow) : List VRow := l.foldr insertByDate []

/-- `get_market_data` (lines 300-466).  `tier1 = none` models an unavailable
Firestore client or a raised query (both are swallowed, lines 336-383);
tier-1 data is sorted by its date index, which is then *named* (`'Date'`).
The Yahoo fallback runs when tier 1 produced nothing; it never raises, so the
`DataSourceUnavailableError` re-raise of line 407 is unreachable.  Validation
(lines 409-442) only sees a date column when the index is named (tier-1 data):
the mock/yahoo frames carry an unnamed date index, so `validate_market_data`
raises its missing-column `DataValidationError`, which is caught and the
unvalidated frame is kept; an in-validator `DataValidationError` is swallowed
the same way.  The final guard (lines 444-466) projects the numeric columns
and strips timezones (structural no-ops here) and raises on an empty frame. -/
def get_market_data (days_back : ℕ) (now : ℤ) (validate : Bool)
    (tier1 : Option (List VRow))
    (yf : Option (List (ℤ × ℚ) × List (ℤ × ℚ))) : Except String (List VRow) :=
  let t1 : List VRow × Bool :=
    match tier1 with
    | some data => if data = [] then ([], false) else (sortByDate data, true)
    | none => ([], false)
  let withFallback : List VRow × Bool :=
    if t1.1 = [] then (fallback_yahoo_finance days_back now yf, false) else t1
  let validated : List VRow :=
    if validate = true ∧ withFallback.1 ≠ [] then
      if withFallback.2 then
        match validate_market_data withFallback.1 with
        | .ok (clean, _) => clean
        | .error _ => withFallback.1
      else withFallback.1
    else withFallback.1
  if validated = [] then .error "Nenhum dado disponível após todas as tentativas"
  else .ok validated

/-- C5: with tier 1 empty or failing and tier 2 empty or erroring,
`get_market_data 30` (the default validating path) returns — without raising —
the synthetic placeholder series: 31 rows spanning the 30-day window from
`now - 30` to `now`, every row carrying index price 70, fx rate 5.0 and
derived base 1.2. -/
theorem C5_fallback_placeholder (now : ℤ) (tier1 : Option (List VRow))
    (yf : Option (List (ℤ × ℚ) × List (ℤ × ℚ)))
    (h1 : tier1 = none ∨ tier1 = some [])
    (h2 : yf = none ∨ ∃ w b, yf = some (w, b) ∧ (w = [] ∨ b = [])) :
    get_market_data 30 now true tier1 yf = .ok (mockRows 30 now) ∧
    mockRows 30 now ≠ [] ∧
    (mockRows 30 now).length = 31 ∧
    (mockRows 30 now).map (fun r => r.date) =
      (List.range 31).map (fun (i : ℕ) => some (now - 30 + (i : ℤ))) ∧
    (∀ r ∈ mockRows 30 now, r.wti = some 70 ∧ r.usd_brl = some 5 ∧ r.pp_fob_usd = some 1.2) := by
  have hmock : fallback_yahoo_finance 30 now yf = mockRows 30 now := by
    rcases h2 with rfl | ⟨w, b, rfl, hwb⟩
    · rfl
    · simp [fallback_yahoo_finance, hwb]
  have hlen : (mockRows 30 now).length = 31 := by
    unfold mockRows
    rw [List.length_map, List.length_range]
  have hne : mockRows 30 now ≠ [] := by
    intro hcon
    rw [hcon] at hlen
    simp at hlen
  refine ⟨?_, hne, hlen, ?_, ?_⟩
  · rcases h1 with rfl | rfl <;>
      simp [get_market_data, hmock, hne]
  · simp [mockRows, List.map_map, Function.comp]
  · intro r hr
    simp only [mockRows, List.mem_map] at hr
    obtain ⟨i, -, rfl⟩ := hr
    exact ⟨rfl, rfl, rfl⟩

/-- Witness for `C5_fallback_placeholder` with both tiers down at `now = 0`. -/
theorem C5_fallback_placeholder_witness :
    get_market_data 30 0 true none none = .ok (mockRows 30 0) ∧
    (mockRows 30 0).length = 31 :=
  ⟨(C5_fallback_placeholder 0 none none (Or.inl rfl) (Or.inl rfl)).1,
   (C5_fallback_placeholder 0 none none (Or.inl rfl) (Or.inl rfl)).2.2.1⟩

-- ===========================================================================
-- `run_backtest_validation` (data_engine.py lines 544-600)
-- ===========================================================================

/-- Result of the backtest: the source's 4-tuple
`(comparison | None, MAPE | None, RMSE | None, message)`.  `noSklearn` is the
missing-dependency return ("Biblioteca scikit-learn não instalada."),
`noOverlap` the empty-join return ("Datas não coincidem."), `ok` the success
return ("Sucesso") — the source's RMSE is `Real.sqrt` of the `mse` field here
(`mean_squared_error(..., squared=False)`); `failed` is the catch-all
`except` return, unreachable in this embedding because date parsing and
column access cannot fail on typed rows. -/
inductive BacktestResult where
  | noSklearn : BacktestResult
  | noOverlap : BacktestResult
  | ok (comparison : List (ℤ × ℚ × ℚ)) (mape : ℚ) (mse : ℚ) : BacktestResult
  | failed (msg : String) : BacktestResult
deriving DecidableEq, Repr

/-- `history_df['PP_Theoretical'] = ((WTI * wti_coef) + spread) * USD_BRL * markup`
(lines 572-574), over history rows `(date, WTI, USD_BRL)`. -/
def theoCurve (history : List (ℤ × ℚ × ℚ)) (wti_coef spread markup : ℚ) : List (ℤ × ℚ) :=
  history.map (fun h => (h.1, (h.2.1 * wti_coef + spread) * h.2.2 * markup))

/-- Insertion into a list of uploaded rows sorted by date. -/
def insertU (r : ℤ × Option ℚ) : List (ℤ × Option ℚ) → List (ℤ × Option ℚ)
  | [] => [r]
  | s :: ss => if r.1 ≤ s.1 then r :: s :: ss else s :: insertU r ss

/-- `uploaded_df.set_index('Data').sort_index()` (line 580, stable). -/
def sortUploaded (l : List (ℤ × Option ℚ)) : List (ℤ × Option ℚ) := l.foldr insertU []

/-- `history_df.join(uploaded_df, how='inner').dropna()` (line 581): every
(theoretical, uploaded) pair of rows with exactly equal dates, keeping only
non-null uploaded prices (the join's NaN rows are dropped immediately, so the
join and the `dropna` are fused).  Rows are `(date, theoretical, observed)`. -/
def backtestJoin (theo : List (ℤ × ℚ)) (uploaded : List (ℤ × Option ℚ)) :
    List (ℤ × ℚ × ℚ) :=
  theo.bind (fun t =>
    (uploaded.filter (fun u => decide (u.1 = t.1))).filterMap
      (fun u => u.2.map (fun p => (t.1, t.2, p))))

/-- `np.finfo(np.float64).eps`: the epsilon sklearn's
`mean_absolute_percentage_error` puts under each denominator. -/
def epsF : ℚ := 1 / 2 ^ 52

/-- `run_backtest_validation` (lines 544-600).  The timezone strips are
structural no-ops on integer dates.  MAPE is sklearn's
`mean(|obs - theo| / max(|obs|, eps))` with `y_true` = the uploaded `Preco`
column; RMSE is `sqrt` of the returned mean squared error. -/
def run_backtest_validation (has_sklearn : Bool) (history : List (ℤ × ℚ × ℚ))
    (uploaded : List (ℤ × Option ℚ)) (wti_coef spread markup : ℚ) : BacktestResult :=
  if has_sklearn = false then .noSklearn
  else
    let comparison := backtestJoin (theoCurve history wti_coef spread markup)
      (sortUploaded uploaded)
    if comparison = [] then .noOverlap
    else
      let mape := (comparison.map (fun c => |c.2.2 - c.2.1| / max |c.2.2| epsF)).sum
        / (comparison.length : ℚ)
      let mse := (comparison.map (fun c => (c.2.2 - c.2.1) ^ 2)).sum
        / (comparison.length : ℚ)
      .ok comparison mape mse

/-- C9 counterexample: with one exactly matching date but a negative observed
price (−5) against theoretical 10, the code returns MAPE = 15/5 = 3 (sklearn
divides by `|obs|`), while the claim's formula `mean(|obs−theo|/obs)` gives −3;
and with one exactly matching date whose observed price is null, the code
returns the no-overlap status instead of metrics. -/
theorem C9_backtest_counterexample :
    run_backtest_validation true [(0, 10, 1)] [(0, some (-5))] 1 0 1 =
      .ok [(0, 10, -5)] 3 225 ∧
    (|(-5 : ℚ) - 10| / (-5) = -3) ∧ ((3 : ℚ) ≠ -3) ∧
    run_backtest_validation true [(0, 10, 1)] [(0, (none : Option ℚ))] 1 0 1 = .noOverlap := by
  refine ⟨?_, by norm_num, by norm_num, ?_⟩ <;>
    norm_num +decide [run_backtest_validation, backtestJoin, theoCurve, sortUploaded,
      insertU, epsF, max_def, abs, List.filterMap_cons, List.filterMap_nil]

/-- C9 (amended): whenever the inner join restricted to non-null observed
prices is non-empty, the backtest returns it together with
`MAPE = mean(|obs − theo| / max(|obs|, ε))` (sklearn's ε = 2⁻⁵² guard; equal to
the claim's `mean(|obs − theo| / obs)` whenever every observed price is
positive) and the mean squared error whose square root is the returned RMSE;
when the join is empty — even if some date matches but its observed price is
null — it returns the no-overlapping-dates status and no metrics.  On
theoretical = [10,10,10] against observed = [11,10,9] over aligned dates this
gives MAPE = (1/11 + 0 + 1/9)/3 and RMSE = √(2/3). -/
theorem C9_backtest_amended :
    (∀ history uploaded coef spread markup comp mape mse,
      run_backtest_validation true history uploaded coef spread markup = .ok comp mape mse →
        comp = backtestJoin (theoCurve history coef spread markup) (sortUploaded uploaded) ∧
        comp ≠ [] ∧
        mape = (comp.map (fun c => |c.2.2 - c.2.1| / max |c.2.2| epsF)).sum
          / (comp.length : ℚ) ∧
        mse = (comp.map (fun c => (c.2.2 - c.2.1) ^ 2)).sum / (comp.length : ℚ)) ∧
    (∀ history uploaded coef spread markup,
      backtestJoin (theoCurve history coef spread markup) (sortUploaded uploaded) = [] →
      run_backtest_validation true history uploaded coef spread markup = .noOverlap) ∧
    (run_backtest_validation true [(0, 10, 1), (1, 10, 1), (2, 10, 1)]
        [(0, some 11), (1, some 10), (2, some 9)] 1 0 1 =
      .ok [(0, 10, 11), (1, 10, 10), (2, 10, 9)] ((1/11 + 0 + 1/9) / 3) (2/3)) ∧
    (∀ mse : ℚ, (mse : ℝ) = 2/3 → Real.sqrt (mse : ℝ) = Real.sqrt (2/3)) := by
  refine ⟨?_, ?_, ?_, ?_⟩
  · intro history uploaded coef spread markup comp mape mse hrun
    unfold run_backtest_validation at hrun
    rw [if_neg (by simp)] at hrun
    dsimp only [] at hrun
    split at hrun
    · exact absurd hrun (by simp)
    · rename_i hne
      obtain ⟨h1, h2, h3⟩ :=
        (BacktestResult.ok.injEq _ _ _ _ _ _).mp hrun
      subst h1
      exact ⟨rfl, hne, h2.symm, h3.symm⟩
  · intro history uploaded coef spread markup hempty
    unfold run_backtest_validation
    rw [if_neg (by simp)]
    dsimp only []
    rw [if_pos hempty]
  · norm_num +decide [run_backtest_validation, backtestJoin, theoCurve, sortUploaded,
      insertU, epsF, max_def, abs, List.filterMap_cons, List.filterMap_nil]
  · intro mse h
    rw [h]

/-- Witness for `C9_backtest_amended` on the worked instance. -/
theorem C9_backtest_amended_witness :
    run_backtest_validation true [(0, 10, 1), (1, 10, 1), (2, 10, 1)]
        [(0, some 11), (1, some 10), (2, some 9)] 1 0 1 =
      .ok [(0, 10, 11), (1, 10, 10), (2, 10, 9)] ((1/11 + 0 + 1/9) / 3) (2/3) ∧
    ([((0 : ℤ), (10 : ℚ), (11 : ℚ)), (1, 10, 10), (2, 10, 9)] : List (ℤ × ℚ × ℚ)) =
      backtestJoin (theoCurve [(0, 10, 1), (1, 10, 1), (2, 10, 1)] 1 0 1)
        (sortUploaded [(0, some 11), (1, some 10), (2, some 9)]) ∧
    ([((0 : ℤ), (10 : ℚ), (11 : ℚ)), (1, 10, 10), (2, 10, 9)] : List (ℤ × ℚ × ℚ)) ≠ [] ∧
    Real.sqrt (((2/3 : ℚ) : ℝ)) = Real.sqrt (2/3) := by
  have H := C9_backtest_amended
  have hA := H.1 _ _ _ _ _ _ _ _ H.2.2.1
  exact ⟨H.2.2.1, hA.1, hA.2.1, H.2.2.2 (2/3) (by norm_num)⟩

-- ===========================================================================
-- `calculate_price_confidence` (data_engine.py lines 607-711)
-- ===========================================================================

/-- Python's `round(x, d)` on exact values: round half to even at the `d`-th
decimal. -/
def roundTE (x : ℚ) : ℤ :=
  let f := Int.floor x
  let r := x - f
  if r < 1/2 then f
  else if 1/2 < r then f + 1
  else if 2 ∣ f then f else f + 1

/-- `round(q, d)`. -/
def pyRound (d : ℕ) (q : ℚ) : ℚ := (roundTE (q * 10 ^ d) : ℚ) / 10 ^ d

/-- The square root used for the standard deviation: exact whenever numerator
and denominator are perfect squares (in particular `ratSqrt 0 = 0`, the only
case the theorems below evaluate), a floor approximation otherwise — the
source computes a float square root. -/
def ratSqrt (q : ℚ) : ℚ :=
  if q ≤ 0 then 0
  else (Nat.sqrt q.num.toNat : ℚ) / (Nat.sqrt q.den : ℚ)

/-- `Series.mean()` over the non-null values (`none` = pandas NaN result on an
empty valid set). -/
def meanQ (l : List ℚ) : Option ℚ :=
  if l = [] then none else some (l.sum / (l.length : ℚ))

/-- `Series.std()` (sample standard deviation, `ddof = 1`, skipping NaN):
NaN (`none`) with fewer than two valid values. -/
def sampleStd (l : List ℚ) : Option ℚ :=
  if l.length < 2 then none
  else
    let m := l.sum / (l.length : ℚ)
    some (ratSqrt ((l.map (fun x => (x - m) ^ 2)).sum / ((l.length : ℚ) - 1)))

/-- `Series.pct_change()`: first entry NaN, then `v[i]/v[i-1] - 1`; a null
neighbour (or a zero previous value, an `inf` in floats) gives a non-finite
entry. -/
def pctChange (v : Col) : Col :=
  none :: (List.zipWith (fun prev cur =>
    match prev, cur with
    | some a, some b => if a = 0 then none else some (b / a - 1)
    | _, _ => none) v v.tail)

/-- `Series.diff()`: first entry NaN, then `v[i] - v[i-1]` with NaN
propagation. -/
def diffCol (v : Col) : Col :=
  none :: (List.zipWith (fun prev cur =>
    match prev, cur with
    | some a, some b => some (b - a)
    | _, _ => none) v v.tail)

/-- `freshness_score = max(0.0, 1.0 - days_since_update / 7.0)` (line 647):
note the *absence* of an upper clamp. -/
def freshness_score (days : ℤ) : ℚ := max 0 (1 - (days : ℚ) / 7)

/-- Modelled from the spec (§4.5), for comparison with the implementation:
`freshnessScore = clamp(1 − daysSinceLast/7, 0, 1)`. -/
def freshness_clamp_spec (days : ℤ) : ℚ := max 0 (min 1 (1 - (days : ℤ) / 7))

/-- The returned confidence dictionary (lines 704-711; the empty-input return
of lines 629-635 carries no `consistency_score` key, hence the `Option`). -/
structure ConfReport where
  confidence_score : ℚ
  data_freshness_days : Option ℤ
  data_completeness : ℚ
  volatility_index : Option ℚ
  consistency_score : Option ℚ
  recommendation : String
deriving DecidableEq, Repr

/-- `calculate_price_confidence` (lines 607-711).  `index = some l` models a
`DatetimeIndex` with dates `l` (whole days); `none` a non-datetime index
(`days_since_update = 999`).  `current_price` is accepted and, as in the
source, never used.  CPython's `max`/`min` keep their first argument when a
comparison with NaN is false, which fixes the NaN branches:
`max(0.0, 1.0 - nan*10)` is `0.0` and `max(0.0, min(1.0, nan))` is `1.0`. -/
def calculate_price_confidence (cols : ColFrame) (index : Option (List ℤ))
    (now : ℤ) (current_price : ℚ) : ConfReport :=
  if nrows cols = 0 then
    { confidence_score := 0, data_freshness_days := none, data_completeness := 0,
      volatility_index := none, consistency_score := none,
      recommendation := "Dados insuficientes para calcular confiança" }
  else
    let days : ℤ :=
      match index with
      | some l =>
        match l.getLast? with
        | some d => now - d
        | none => 999
      | none => 999
    let fresh := freshness_score days
    let total : ℕ := nrows cols * cols.length
    let nulls : ℕ := (cols.map (fun c => c.2.countP (fun x => x.isNone))).sum
    let completeness : ℚ := if 0 < total then 1 - (nulls : ℚ) / (total : ℚ) else 0
    let volPair : Option ℚ × ℚ :=
      match getCol cols "PP_Price" with
      | some v =>
        match sampleStd (numericVals (pctChange v)) with
        | some s => (some s, max 0 (1 - s * 10))
        | none => (none, 0)
      | none => (none, 0.5)
    let consistency : ℚ :=
      match getCol cols "PP_Price" with
      | some v =>
        if 1 < nrows cols then
          match meanQ (numericVals v) with
          | some mp =>
            if 0 < mp then
              match meanQ (numericVals ((diffCol v).map (liftC (fun x => |x|)))) with
              | some dm => max 0 (min 1 (1 - dm / mp))
              | none => 1
            else 0.5
          | none => 0.5
        else 0.5
      | none => 0.5
    let confidence := fresh * 0.3 + completeness * 0.3 + volPair.2 * 0.2 + consistency * 0.2
    { confidence_score := pyRound 3 confidence,
      data_freshness_days := if days = 999 then none else some days,
      data_completeness := pyRound 3 completeness,
      volatility_index := volPair.1.map (fun v => pyRound 4 v),
      consistency_score := some (pyRound 3 consistency),
      recommendation :=
        if 0.8 ≤ confidence then "Alta confiança - Pode usar para decisão"
        else if 0.6 ≤ confidence then "Confiança moderada - Considere validar com outras fontes"
        else "Baixa confiança - Aguarde atualização de dados" }

/-- C7, the failing input: a three-row series `PP_Price = [10, 10, 10]` whose
last timestamp lies 70 days in the *future* (`days_since_update = -70`) gets
`freshness_score = 11` — the code never clamps it to 1 — and a confidence
score of `11·0.3 + 1·0.3 + 1·0.2 + 1·0.2 = 4.0`, outside `[0, 1]`, against the
claim, the function's own docstring (`'confidence_score': 0.0-1.0`) and the
spec's clamp.  The empty-input conjuncts of the claim do hold (score exactly 0,
bottom recommendation). -/
theorem C7_confidence_score_out_of_bounds :
    (calculate_price_confidence [("PP_Price", [some 10, some 10, some 10])]
        (some [68, 69, 70]) 0 10).confidence_score = 4 ∧
    ¬ ((calculate_price_confidence [("PP_Price", [some 10, some 10, some 10])]
        (some [68, 69, 70]) 0 10).confidence_score ≤ 1) ∧
    (calculate_price_confidence [] none 0 10).confidence_score = 0 ∧
    (calculate_price_confidence [] none 0 10).recommendation =
      "Dados insuficientes para calcular confiança" := by
  refine ⟨?_, ?_, by rfl, by rfl⟩ <;>
    norm_num +decide [calculate_price_confidence, nrows, getCol, List.find?, freshness_score,
      numericVals, pctChange, diffCol, sampleStd, meanQ, ratSqrt, pyRound, roundTE, liftC,
      max_def, min_def, List.getLast?, List.filterMap_cons, List.filterMap_nil,
      Int.floor_eq_iff]

/-- C8 counterexample: the implemented freshness score is *not* the clamped
spec formula on negative day counts (future-dated data: `max(0, 1-(-7)/7) = 2`
while the clamp gives 1), and it is *not* strictly decreasing over all of
`[0, 10]`: days 8 and 9 both score 0 (the floor is reached at day 7). -/
theorem C8_freshness_counterexample :
    freshness_score 8 = 0 ∧ freshness_score 9 = 0 ∧
    freshness_score (-7) = 2 ∧ freshness_clamp_spec (-7) = 1 := by
  refine ⟨?_, ?_, ?_, ?_⟩ <;>
    norm_num [freshness_score, freshness_clamp_spec, max_def, min_def]

/-- C8 (amended): the implemented freshness score `max(0, 1 - d/7)` agrees with
the spec's `clamp(1 - d/7, 0, 1)` for every non-negative day count; it is
strictly decreasing on day counts in `[0, 7]`; and it is constantly 0 from day
7 on (so not strictly decreasing beyond the floor). -/
theorem C8_freshness_amended :
    (∀ d : ℤ, 0 ≤ d → freshness_score d = freshness_clamp_spec d) ∧
    (∀ d1 d2 : ℤ, 0 ≤ d1 → d1 < d2 → d2 ≤ 7 →
      freshness_score d2 < freshness_score d1) ∧
    (∀ d : ℤ, 7 ≤ d → freshness_score d = 0) := by
  refine ⟨?_, ?_, ?_⟩
  · intro d hd
    have hd' : (0 : ℚ) ≤ (d : ℚ) := by exact_mod_cast hd
    unfold freshness_score freshness_clamp_spec
    rw [min_eq_right (by linarith)]
  · intro d1 d2 h0 h12 h27
    have hc1 : (d1 : ℚ) < (d2 : ℚ) := by exact_mod_cast h12
    have hc2 : (d2 : ℚ) ≤ 7 := by exact_mod_cast h27
    have hc0 : (0 : ℚ) ≤ (d1 : ℚ) := by exact_mod_cast h0
    unfold freshness_score
    rw [max_eq_right (by linarith), max_eq_right (by linarith)]
    linarith
  · intro d hd
    have hc : (7 : ℚ) ≤ (d : ℚ) := by exact_mod_cast hd
    unfold freshness_score
    rw [max_eq_left (by linarith)]

/-- Witness for `C8_freshness_amended` at days 3, (2, 5) and 9. -/
theorem C8_freshness_amended_witness :
    freshness_score 3 = freshness_clamp_spec 3 ∧
    freshness_score 5 < freshness_score 2 ∧
    freshness_score 9 = 0 :=
  ⟨C8_freshness_amended.1 3 (by norm_num),
   C8_freshness_amended.2.1 2 5 (by norm_num) (by norm_num) (by norm_num),
   C8_freshness_amended.2.2 9 (by norm_num)⟩
